import Mathlib

/-! ## Python string primitives -/

/-- Python strings, modelled as lists of characters. -/
abbrev PyStr := List Char

/-- The character list of a Lean string literal, used to write `PyStr` values. -/
def pyStr (s : String) : PyStr := s.data

/-- ASCII lowering of one character, the fragment of Python `str.lower`
exercised by the ASCII labels, targets and hints of this code base. -/
def asciiLower (c : Char) : Char :=
  if 65 ≤ c.toNat ∧ c.toNat ≤ 90 then Char.ofNat (c.toNat + 32) else c

/-- Python `str.lower`. -/
def pyLower (s : PyStr) : PyStr := s.map asciiLower

/-- Python `str.strip`'s whitespace test (space, tab, LF, VT, FF, CR). -/
def isPySpace (c : Char) : Bool := c.toNat = 32 ∨ (9 ≤ c.toNat ∧ c.toNat ≤ 13)

/-- Python `str.strip`. -/
def pyStrip (s : PyStr) : PyStr :=
  ((s.dropWhile isPySpace).reverse.dropWhile isPySpace).reverse

/-- Python `s.lower().strip()`, the normalisation applied to both OCR text and
targets in the fuzzy matching stage. -/
def pyNorm (s : PyStr) : PyStr := pyStrip (pyLower s)

/-- Python `s.startswith(pre)`. -/
def pyStartsWith (s pre : PyStr) : Bool := pre.isPrefixOf s

/-- Python `needle in hay` (substring containment). -/
def pyContains : PyStr → PyStr → Bool
  | [], needle => needle.isEmpty
  | c :: t, needle => needle.isPrefixOf (c :: t) || pyContains t needle

/-- Python `s.split(sep)` for a one-character separator. -/
def pySplitOn (sep : Char) : PyStr → List PyStr
  | [] => [[]]
  | c :: t =>
    match pySplitOn sep t with
    | [] => [[]]
    | h :: r => if c = sep then [] :: h :: r else (c :: h) :: r

/-- Python `int(q)` on a real number: truncation toward zero. -/
def pyInt (q : ℚ) : ℤ := if 0 ≤ q then ⌊q⌋ else ⌈q⌉

/-! ## OCR text items and the fuzzy scoring stage

From `ClickElementTool._run` in `crew_tools/gui_interaction_tools.py`
(the TIER 2 fuzzy-matching fallback): each OCR detection carries a text,
a center in screenshot-pixel coordinates, and a confidence. -/

/-- One OCR detection: `item.text`, `item.center = (cx, cy)`,
`item.confidence`. -/
structure TextItem where
  text : PyStr
  cx : ℚ
  cy : ℚ
  confidence : ℚ
deriving DecidableEq, Repr

/-- The score the fuzzy loop assigns to one candidate, `none` when the
candidate falls through every branch (`continue`): exact match
`1000 + conf*100`, then `text_lower.startswith(target_lower)` giving
`700 + conf*100`, then substring containment giving
`400 - (len(text)-len(target)) + conf*100`, then
`target_lower.startswith(text_lower) and len(text_lower) >= 3` giving
`300 + conf*100`. -/
def fuzzyScore (targetLower : PyStr) (it : TextItem) : Option ℚ :=
  let textLower := pyNorm it.text
  if textLower = targetLower then some (1000 + it.confidence * 100)
  else if pyStartsWith textLower targetLower then some (700 + it.confidence * 100)
  else if pyContains textLower targetLower then
    some (400 - ((textLower.length : ℚ) - (targetLower.length : ℚ)) + it.confidence * 100)
  else if pyStartsWith targetLower textLower ∧ 3 ≤ textLower.length then
    some (300 + it.confidence * 100)
  else none

/-- The fuzzy loop: iterate candidates in order, keeping the first candidate
whose score strictly exceeds the best so far, starting from `best_score = -999`
and `best_match = None`. -/
def bestFuzzyStep (targetLower : PyStr) (acc : Option TextItem × ℚ) (it : TextItem) :
    Option TextItem × ℚ :=
  match fuzzyScore targetLower it with
  | none => acc
  | some s => if s > acc.2 then (some it, s) else acc

/-- The `best_match` selected by the fuzzy loop over a candidate list. -/
def bestFuzzy (targetLower : PyStr) (items : List TextItem) : Option TextItem :=
  (items.foldl (bestFuzzyStep targetLower) (none, -999)).1

/-! ## Spatial filtering of OCR candidates by visual context -/

/-- Stable ascending comparison by the Python sort key
`(item.center[1], item.center[0])`. -/
def yxLe (a b : TextItem) : Bool := a.cy < b.cy ∨ (a.cy = b.cy ∧ a.cx ≤ b.cx)

/-- Stable insertion of an element into an already sorted list: an element is
placed before every later element with an equal key, as Python's stable sort
does for an element that occurs earlier in the input. -/
def insertYX (a : TextItem) : List TextItem → List TextItem
  | [] => [a]
  | b :: t => if yxLe a b then a :: b :: t else b :: insertYX a t

/-- Python `sorted(items, key=lambda item: (item.center[1], item.center[0]))`. -/
def pySortYX : List TextItem → List TextItem
  | [] => []
  | a :: t => insertYX a (pySortYX t)

/-- The vertical filter of the spatial filtering stage applied to `all_text`
when the caller supplied a (truthy) `visual_context`: `top`/`above` keeps
`center_y < 0.4*h`, else `bottom`/`below` keeps `center_y > 0.6*h`, else
`middle`/`center` keeps `0.3*h < center_y < 0.7*h`. -/
def vertStage (cl : PyStr) (scrH : ℚ) (items : List TextItem) : List TextItem :=
  if pyContains cl (pyStr "top") || pyContains cl (pyStr "above") then
    items.filter (fun it => it.cy < scrH * (4/10))
  else if pyContains cl (pyStr "bottom") || pyContains cl (pyStr "below") then
    items.filter (fun it => it.cy > scrH * (6/10))
  else if pyContains cl (pyStr "middle") || pyContains cl (pyStr "center") then
    items.filter (fun it => scrH * (3/10) < it.cy ∧ it.cy < scrH * (7/10))
  else items

/-- The horizontal filter applied to the vertically filtered candidates. -/
def horizStage (cl : PyStr) (scrW : ℚ) (v1 : List TextItem) : List TextItem :=
  if pyContains cl (pyStr "left") then
    v1.filter (fun it => it.cx < scrW * (4/10))
  else if pyContains cl (pyStr "right") then
    v1.filter (fun it => it.cx > scrW * (6/10))
  else v1

/-- The order filter applied last: first or last 3 in `(y, x)` order. -/
def orderStage (cl : PyStr) (v2 : List TextItem) : List TextItem :=
  if pyContains cl (pyStr "first") then (pySortYX v2).take 3
  else if pyContains cl (pyStr "last") then (pySortYX v2).drop (v2.length - 3)
  else v2

/-- The whole spatial filtering stage: vertical, then horizontal, then order
filtering, all keyed on the lowered context string. -/
def spatialFilter (ctx : PyStr) (scrH scrW : ℚ) (items : List TextItem) :
    List TextItem :=
  orderStage (pyLower ctx)
    (horizStage (pyLower ctx) scrW (vertStage (pyLower ctx) scrH items))

/-! ## The click pipeline (`ClickElementTool._run`)

The tool-registry collaborators (screenshot, accessibility, OCR, input
dispatch) are modelled as an environment record holding exactly the values
those collaborators return during one `_run` call; the pipeline itself —
branch order, coordinate arithmetic, which result object is built and which
clicks are dispatched — is translated from the source. -/

/-- Environment of one `ClickElementTool._run` call. `findTextResult` and
`allText` are the OCR results on the (possibly window-cropped) screenshot, in
its pixel coordinate space. -/
structure PipeEnv where
  accAvailable : Bool
  hasClickElementAttr : Bool
  clickElementClicked : Bool
  foundElements : List (ℤ × ℤ)
  windowBounds : Option (ℤ × ℤ × ℤ × ℤ)
  scaling : ℚ
  screenshotW : ℚ
  screenshotH : ℚ
  findTextResult : List TextItem
  allText : List TextItem
  inputClickOk : Bool

/-- The `get_app_window_bounds` collaborator checks backend availability
itself and reports `None` when the backend is unavailable. -/
def boundsLookup (env : PipeEnv) : Option (ℤ × ℤ × ℤ × ℤ) :=
  if env.accAvailable then env.windowBounds else none

/-- The `method_used` tags of `ActionResult` in this pipeline. -/
inductive PipeMethod
  | semantic
  | accessibilityNative
  | accessibilityCoordinates
  | ocr
  | multiTier
deriving DecidableEq, Repr

/-- The fields of the returned `ActionResult` that this pipeline fills. -/
structure PipeResult where
  success : Bool
  actionTaken : PyStr
  methodUsed : PipeMethod
  confidence : ℚ
  coordinates : Option (ℤ × ℤ)
  errorMsg : Option PyStr
deriving DecidableEq, Repr

/-- One observable click dispatch: a native accessibility click performed
inside `click_element`, or an `input_tool` click at screen coordinates. -/
inductive ClickEv
  | nativeClick
  | at (x y : ℤ)
deriving DecidableEq, Repr

/-- Rendering of an integer into the model's string type, for the f-strings
of the pipeline. -/
def pyOfInt (i : ℤ) : PyStr := (toString i).data

/-- The `empty_space_keywords` list. -/
def emptySpaceKeywords : List PyStr :=
  [pyStr "empty space", pyStr "blank area", pyStr "empty area",
   pyStr "blank space", pyStr "background"]

/-- `ClickElementTool._run`: empty-space shortcut, TIER 1 accessibility
(native click, then first `find_elements` hit), TIER 2 OCR (window crop
offsets, `find_text`, then the spatially filtered fuzzy loop), and the
terminal failure result. Returns the `ActionResult` together with the list
of dispatched clicks. -/
def clickRun (env : PipeEnv) (target : PyStr) (visualContext : Option PyStr)
    (currentApp : Option PyStr) : PipeResult × List ClickEv :=
  let targetLower := pyLower target
  let isEmptySpace := emptySpaceKeywords.any (fun kw => pyContains targetLower kw)
  let emptyBranch : Option (PipeResult × List ClickEv) :=
    if isEmptySpace ∧ currentApp.isSome then
      match boundsLookup env with
      | some (x, y, w, h) =>
        let cx := x + Int.fdiv w 2
        let cy := y + Int.fdiv h 2
        some ({ success := env.inputClickOk,
                actionTaken := pyStr "Clicked empty space at (" ++ pyOfInt cx ++
                  pyStr ", " ++ pyOfInt cy ++ pyStr ")",
                methodUsed := .semantic, confidence := 1,
                coordinates := some (cx, cy), errorMsg := none },
              [ClickEv.at cx cy])
      | none => none
    else none
  match emptyBranch with
  | some r => r
  | none =>
    let tier1a : Option (PipeResult × List ClickEv) :=
      if env.accAvailable ∧ env.hasClickElementAttr ∧ currentApp.isSome ∧
          env.clickElementClicked then
        some ({ success := true, actionTaken := pyStr "Clicked " ++ target,
                methodUsed := .accessibilityNative, confidence := 1,
                coordinates := none, errorMsg := none },
              [ClickEv.nativeClick])
      else none
    match tier1a with
    | some r => r
    | none =>
      let tier1b : Option (PipeResult × List ClickEv) :=
        if env.accAvailable ∧ currentApp.isSome then
          match env.foundElements with
          | (x, y) :: _ =>
            some ({ success := env.inputClickOk,
                    actionTaken := pyStr "Clicked " ++ target,
                    methodUsed := .accessibilityCoordinates, confidence := 1,
                    coordinates := some (x, y), errorMsg := none },
                  [ClickEv.at x y])
          | [] => none
        else none
      match tier1b with
      | some r => r
      | none =>
        let cropped : Option (ℤ × ℤ × ℤ × ℤ) :=
          if currentApp.isSome ∧ env.accAvailable then env.windowBounds else none
        let xoff : ℤ := match cropped with | some (x, _, _, _) => x | none => 0
        let yoff : ℤ := match cropped with | some (_, y, _, _) => y | none => 0
        let ocrW : ℚ :=
          match cropped with
          | some (_, _, w, _) => ((pyInt ((w : ℚ) * env.scaling) : ℤ) : ℚ)
          | none => env.screenshotW
        let ocrH : ℚ :=
          match cropped with
          | some (_, _, _, h) => ((pyInt ((h : ℚ) * env.scaling) : ℤ) : ℚ)
          | none => env.screenshotH
        match env.findTextResult with
        | e :: _ =>
          let sx := pyInt (e.cx / env.scaling) + xoff
          let sy := pyInt (e.cy / env.scaling) + yoff
          ({ success := env.inputClickOk,
             actionTaken := pyStr "Clicked " ++ target, methodUsed := .ocr,
             confidence := e.confidence, coordinates := some (sx, sy),
             errorMsg := none },
           [ClickEv.at sx sy])
        | [] =>
          let targetLower2 := pyNorm target
          let candidates :=
            match visualContext with
            | some ctx =>
              if ctx ≠ [] then spatialFilter ctx ocrH ocrW env.allText
              else env.allText
            | none => env.allText
          match bestFuzzy targetLower2 candidates with
          | some b =>
            let sx := pyInt (b.cx / env.scaling) + xoff
            let sy := pyInt (b.cy / env.scaling) + yoff
            ({ success := env.inputClickOk,
               actionTaken := pyStr "Clicked " ++ target, methodUsed := .ocr,
               confidence := b.confidence, coordinates := some (sx, sy),
               errorMsg := none },
             [ClickEv.at sx sy])
          | none =>
            ({ success := false,
               actionTaken := pyStr "Failed to click " ++ target,
               methodUsed := .multiTier, confidence := 0, coordinates := none,
               errorMsg := some (pyStr "Could not locate: " ++ target) },
             [])

/-! ## The vision detector (`ElementDetector.locate_element`) -/

/-- An HSV color range from `_parse_color_hint`'s table. -/
abbrev ColorRange := (ℕ × ℕ × ℕ) × (ℕ × ℕ × ℕ)

/-- The `color_map` of `_parse_color_hint`, checked in insertion order; the
first color name contained in the hint wins, otherwise no range. -/
def parseColorHint (hint : PyStr) : List ColorRange :=
  let hl := pyLower hint
  if pyContains hl (pyStr "red") then
    [((0, 100, 100), (10, 255, 255)), ((170, 100, 100), (180, 255, 255))]
  else if pyContains hl (pyStr "blue") then [((100, 100, 100), (130, 255, 255))]
  else if pyContains hl (pyStr "green") then [((40, 100, 100), (80, 255, 255))]
  else if pyContains hl (pyStr "yellow") then [((20, 100, 100), (40, 255, 255))]
  else if pyContains hl (pyStr "orange") then [((10, 100, 100), (20, 255, 255))]
  else if pyContains hl (pyStr "purple") then [((130, 100, 100), (170, 255, 255))]
  else []

/-- One `find_by_color` contour result. -/
structure CVElem where
  confidence : ℚ
  cx : ℤ
  cy : ℤ
deriving DecidableEq, Repr

/-- Python `max(results, key=lambda r: r.confidence)`: the first maximal
element. -/
def maxByConf (r : TextItem) (rs : List TextItem) : TextItem :=
  rs.foldl (fun b x => if x.confidence > b.confidence then x else b) r

/-- Python `max(elements, key=lambda e: e["confidence"])` on contour results. -/
def maxByConfCV (r : CVElem) (rs : List CVElem) : CVElem :=
  rs.foldl (fun b x => if x.confidence > b.confidence then x else b) r

/-- Environment of one `locate_element` call: what `ocr.find_text` returns
for the requested `text_content`, and what `matcher.find_by_color` returns
for each HSV range. -/
structure DetectorEnv where
  findTextResult : List TextItem
  findByColor : ColorRange → List CVElem

/-- Detection method tag of a `DetectedElement`. -/
inductive DetMethod
  | ocr
  | cv
deriving DecidableEq, Repr

/-- The fields of `DetectedElement` this development reasons about. -/
structure DetectedElem where
  confidence : ℚ
  method : DetMethod
deriving DecidableEq, Repr

/-- The color loop of `locate_element`: the first range with a non-empty
contour result yields its most confident element. -/
def colorLoop (f : ColorRange → List CVElem) : List ColorRange → Option CVElem
  | [] => none
  | r :: rest =>
    match f r with
    | [] => colorLoop f rest
    | e :: es => some (maxByConfCV e es)

/-- The OCR text path of `locate_element`: the most confident `find_text`
hit, returned only when its confidence exceeds 0.6. -/
def locateTextTry (env : DetectorEnv) (textContent : Option PyStr) :
    Option DetectedElem :=
  match textContent with
  | some tc =>
    if tc ≠ [] then
      match env.findTextResult with
      | [] => none
      | r :: rs =>
        if (maxByConf r rs).confidence > 6/10 then
          some { confidence := (maxByConf r rs).confidence, method := .ocr }
        else none
    else none
  | none => none

/-- The color-hint path of `locate_element`: the first non-empty range's best
contour element, with no confidence threshold. -/
def locateColorTry (env : DetectorEnv) (colorHint : Option PyStr) :
    Option DetectedElem :=
  match colorHint with
  | some ch =>
    if ch ≠ [] then
      match colorLoop env.findByColor (parseColorHint ch) with
      | some e => some { confidence := e.confidence, method := .cv }
      | none => none
    else none
  | none => none

/-- `ElementDetector.locate_element`: the OCR text path first (returning only
above the 0.6 confidence threshold), then the color path. -/
def locateElement (env : DetectorEnv) (textContent : Option PyStr)
    (colorHint : Option PyStr) : Option DetectedElem :=
  match locateTextTry env textContent with
  | some d => some d
  | none => locateColorTry env colorHint

/-! ## macOS backend: application resolution (`MacOSAccessibility.get_app`) -/

/-- One entry of the running-application list, as atomacos reports it. -/
structure RunningApp where
  localizedName : Option PyStr
  bundleId : Option PyStr
deriving DecidableEq, Repr

/-- Environment of one `get_app` call: the running-application list and the
frontmost application's `AXTitle` (when a frontmost app exists). -/
structure MacEnv where
  runningApps : List RunningApp
  frontmostTitle : Option PyStr

/-- `MacOSAccessibility._matches_name`: case-insensitive bidirectional
substring match, false when either name is empty. -/
def matchesName (name1 name2 : PyStr) : Bool :=
  if name1 = [] ∨ name2 = [] then false
  else
    pyContains (pyLower name2) (pyLower name1) ||
      pyContains (pyLower name1) (pyLower name2)

/-- The reference `get_app` resolves to: a running application (via the
localized-name lookup or the running-application scan) or the frontmost
application. -/
inductive MacAppRef
  | app (a : RunningApp)
  | frontmost
deriving DecidableEq, Repr

/-- `MacOSAccessibility.get_app` with an empty cache (every retry attempt
runs the same three lookups against the same environment): the atomacos
localized-name lookup, then the running-application scan accepting a
case-insensitive substring match with a resolvable bundle id, then the
frontmost application if its title matches; `none` on a miss. -/
def macGetApp (avail : Bool) (env : MacEnv) (appName : PyStr) : Option MacAppRef :=
  if ¬avail ∨ appName = [] then none
  else
    match env.runningApps.find?
        (fun a => a.localizedName = some (pyStrip appName)) with
    | some a => some (.app a)
    | none =>
      match env.runningApps.find? (fun a =>
          match a.localizedName with
          | some ln => matchesName ln (pyStrip appName) ∧ a.bundleId.isSome
          | none => false) with
      | some a => some (.app a)
      | none =>
        match env.frontmostTitle with
        | some t => if matchesName t (pyStrip appName) then some .frontmost
          else none
        | none => none

/-! ## macOS backend: element extraction and tree traversal -/

/-- Python `role.replace("AX", "")`: removes every (non-overlapping)
occurrence of `"AX"`. -/
def pyReplaceAX : PyStr → PyStr
  | [] => []
  | 'A' :: 'X' :: t => pyReplaceAX t
  | c :: t => c :: pyReplaceAX t

/-- The AX attributes of one native node that `_extract_element_info` and
`_traverse` read: role, action/enabled state, geometry (`hasGeom` models
`hasattr(node, "AXPosition") and hasattr(node, "AXSize")`), and the label and
identifier strings (`label` being what `_get_label` assembles from
`AXAttributedDescription`/`AXTitle`/`AXValue`/`AXDescription`). -/
structure MacRawElem where
  role : PyStr
  hasActions : Bool
  enabled : Bool
  hasGeom : Bool
  x : ℚ
  y : ℚ
  w : ℚ
  h : ℚ
  label : PyStr
  identifier : PyStr
deriving DecidableEq, Repr

/-- The registered element dictionary built by `_extract_element_info`
(minus the random `element_id` and the native back-reference). -/
structure MacElemInfo where
  role : PyStr
  label : PyStr
  identifier : PyStr
  center : ℤ × ℤ
  bounds : ℤ × ℤ × ℤ × ℤ
  hasActions : Bool
  enabled : Bool
deriving DecidableEq, Repr

/-- `MacOSAccessibility._extract_element_info`: reject nodes without
geometry attributes, with `w <= 0 or h <= 0`, with
`x < 0 or y < 0 or x > screen_width or y > screen_height`, or with neither
label, identifier nor actions; otherwise register the element with integer
center and bounds. -/
def macExtract (screenW screenH : ℚ) (e : MacRawElem) : Option MacElemInfo :=
  if ¬e.hasGeom then none
  else if e.w ≤ 0 ∨ e.h ≤ 0 then none
  else if e.x < 0 ∨ e.y < 0 ∨ e.x > screenW ∨ e.y > screenH then none
  else if e.label = [] ∧ e.identifier = [] ∧ ¬e.hasActions then none
  else
    some { role := pyReplaceAX e.role, label := e.label,
           identifier := e.identifier,
           center := (pyInt (e.x + e.w / 2), pyInt (e.y + e.h / 2)),
           bounds := (pyInt e.x, pyInt e.y, pyInt e.w, pyInt e.h),
           hasActions := e.hasActions, enabled := e.enabled }

mutual
/-- A native accessibility tree: one node's attributes and its children. -/
inductive AXTree where
  | node (elem : MacRawElem) (children : AXForest)
/-- A list of sibling accessibility subtrees. -/
inductive AXForest where
  | nil
  | cons (t : AXTree) (f : AXForest)
end

mutual
/-- `MacOSAccessibility._traverse`: stop beyond depth 40, recurse through
`AXApplication` nodes without collecting them, otherwise collect the node
(when `interactive_only` is off or the node has actions or is enabled and
extraction accepts it) and recurse into its children at `depth + 1`. -/
def macTraverse (screenW screenH : ℚ) (interactiveOnly : Bool) :
    AXTree → ℕ → List MacElemInfo
  | .node e cs, depth =>
    if depth > 40 then []
    else if e.role = pyStr "AXApplication" then
      macTraverseForest screenW screenH interactiveOnly cs (depth + 1)
    else
      let isInteractive := e.hasActions || e.enabled
      let own :=
        if ¬interactiveOnly ∨ isInteractive = true then
          match macExtract screenW screenH e with
          | some info => [info]
          | none => []
        else []
      own ++ macTraverseForest screenW screenH interactiveOnly cs (depth + 1)
/-- Traversal of a sibling list at one depth. -/
def macTraverseForest (screenW screenH : ℚ) (interactiveOnly : Bool) :
    AXForest → ℕ → List MacElemInfo
  | .nil, _ => []
  | .cons t f, depth =>
    macTraverse screenW screenH interactiveOnly t depth ++
      macTraverseForest screenW screenH interactiveOnly f depth
end

/-- The Windows backend's fixed traversal bound (`self._max_depth`, set once
in `WindowsAccessibility.__init__`). -/
def winMaxDepth : ℕ := 25

mutual
/-- `WindowsAccessibility._traverse` (`tools/accessibility/windows/
accessibility.py`): stop beyond `self._max_depth`, register the node when
`interactive_only` is off or `node.is_enabled()`, recurse at `depth + 1`.
The element payload built by `normalize_windows_element` lives outside the
staged sources, so registration is abstracted into the `normalize`
parameter. -/
def winTraverse (normalize : MacRawElem → Option MacElemInfo)
    (interactiveOnly : Bool) : AXTree → ℕ → List MacElemInfo
  | .node e cs, depth =>
    if depth > winMaxDepth then []
    else
      let own :=
        if ¬interactiveOnly ∨ e.enabled = true then
          match normalize e with
          | some info => [info]
          | none => []
        else []
      own ++ winTraverseForest normalize interactiveOnly cs (depth + 1)
/-- Traversal of a Windows sibling list at one depth. -/
def winTraverseForest (normalize : MacRawElem → Option MacElemInfo)
    (interactiveOnly : Bool) : AXForest → ℕ → List MacElemInfo
  | .nil, _ => []
  | .cons t f, depth =>
    winTraverse normalize interactiveOnly t depth ++
      winTraverseForest normalize interactiveOnly f depth
end

mutual
/-- `LinuxAccessibility._collect_all_elements`: stop beyond depth 25,
collect the node's extracted info and recurse at `depth + 1` (the per-node
categorization into interactive/menu/static buckets is abstracted into the
`extract` parameter, which models `_extract_element_info` together with
`_categorize_element`). -/
def linuxCollect (extract : MacRawElem → Option MacElemInfo) :
    AXTree → ℕ → List MacElemInfo
  | .node e cs, depth =>
    if depth > 25 then []
    else
      let own :=
        match extract e with
        | some info => [info]
        | none => []
      own ++ linuxCollectForest extract cs (depth + 1)
/-- Traversal of a Linux sibling list at one depth. -/
def linuxCollectForest (extract : MacRawElem → Option MacElemInfo) :
    AXForest → ℕ → List MacElemInfo
  | .nil, _ => []
  | .cons t f, depth =>
    linuxCollect extract t depth ++ linuxCollectForest extract f depth
end

/-! ## macOS backend: click execution (`click_by_id`) -/

/-- The clickable-ancestor role set of `_find_clickable_parent`. -/
def clickableRoles : List PyStr :=
  [pyStr "AXRow", pyStr "AXOutlineRow", pyStr "AXCell", pyStr "AXButton",
   pyStr "AXMenuItem", pyStr "AXCheckBox", pyStr "AXRadioButton",
   pyStr "AXPopUpButton", pyStr "AXGroup"]

/-- The click-relevant attributes of one native node handle. -/
structure MacNodeCore where
  role : PyStr
  hasPress : Bool
  hasAXPress : Bool
  actions : List PyStr
  geom : Option ((ℚ × ℚ) × (ℚ × ℚ))
deriving DecidableEq, Repr

/-- A native node handle together with its ancestor chain (nearest parent
first), standing for the `AXParent` links. -/
structure MacNode where
  core : MacNodeCore
  ancestors : List MacNodeCore
deriving DecidableEq, Repr

/-- The first action whose lowered name contains `press` or `click`. -/
def findPressAction (actions : List PyStr) : Option PyStr :=
  actions.find? (fun a =>
    pyContains (pyLower a) (pyStr "press") || pyContains (pyLower a) (pyStr "click"))

/-- How `_click_node` clicked a node (or that it had no method). -/
inductive MacClickOutcome
  | press
  | axPress
  | action (a : PyStr)
  | coordClick (x y : ℤ)
  | noMethod
deriving DecidableEq, Repr

/-- `MacOSAccessibility._click_node`: `Press`, then `AXPress`, then the first
press/click entry of `AXActions` via `performAction`, then a coordinate click
at the node's own center, else failure. -/
def clickNode (n : MacNodeCore) : MacClickOutcome :=
  if n.hasPress then .press
  else if n.hasAXPress then .axPress
  else
    match findPressAction n.actions with
    | some a => .action a
    | none =>
      match n.geom with
      | some ((px, py), (sw, sh)) =>
        .coordClick (pyInt (px + sw / 2)) (pyInt (py + sh / 2))
      | none => .noMethod

/-- `MacOSAccessibility._find_clickable_parent`: walk at most 5 ancestors up,
returning the first whose role is in the clickable set and that exposes
`Press`, `AXPress` or a non-empty `AXActions`. -/
def findClickableParent (ancestors : List MacNodeCore) : Option MacNodeCore :=
  (ancestors.take 5).find? (fun p =>
    p.role ∈ clickableRoles ∧ (p.hasPress ∨ p.hasAXPress ∨ p.actions ≠ []))

/-- One registry entry as `click_by_id` reads it: the stored native node (if
any), label, registered center and role. -/
structure MacRegEntry where
  node : Option MacNode
  label : PyStr
  center : Option (ℤ × ℤ)
  role : PyStr
deriving DecidableEq, Repr

/-- The observable result of `MacOSAccessibility.click_by_id`. -/
inductive MacClickRes
  | notAvailable
  | notFound
  | parentClick (o : MacClickOutcome)
  | centerClick (x y : ℤ)
  | nodeClick (o : MacClickOutcome)
  | noMethod
deriving DecidableEq, Repr

/-- `MacOSAccessibility.click_by_id`: unavailable / unknown id first; for
`StaticText`/`Text` roles try the clickable ancestor's `_click_node` first;
then a `pyautogui` coordinate click at the registered center; then
`_click_node` on the element's own handle; else failure. -/
def macClickById (avail : Bool) (entry : Option MacRegEntry) : MacClickRes :=
  if ¬avail then .notAvailable
  else
    match entry with
    | none => .notFound
    | some e =>
      let parentRes : Option MacClickOutcome :=
        if e.role = pyStr "StaticText" ∨ e.role = pyStr "Text" then
          match e.node with
          | some n => (findClickableParent n.ancestors).map clickNode
          | none => none
        else none
      let step2 : MacClickRes :=
        match e.center with
        | some (cx, cy) => .centerClick cx cy
        | none =>
          match e.node with
          | some n =>
            if clickNode n.core = .noMethod then .noMethod
            else .nodeClick (clickNode n.core)
          | none => .noMethod
      match parentRes with
      | some o => if o = .noMethod then step2 else .parentClick o
      | none => step2

/-! ## Windows backend: versioned registry lookup and `click_by_id`

`tools/accessibility/windows/accessibility.py` imports
`VersionedElementRegistry` from a module that is not among the staged
sources; its lookup and epoch semantics are therefore modelled from the
spec (§4.2), while `click_by_id` itself is translated from the source. -/

/-- The element-info fields `click_by_id` reads from a registry record. -/
structure WinElemInfo where
  label : String
  appName : String
  center : Option (ℤ × ℤ)
deriving DecidableEq, Repr

/-- One registry record: element info, whether a native reference is held,
and the epoch at which the record was registered. -/
structure WinRegRecord where
  elementInfo : WinElemInfo
  nativeRef : Bool
  epoch : ℕ
deriving DecidableEq, Repr

/-- The versioned registry: records keyed by id, plus the global epoch. -/
structure WinRegistry where
  entries : List (String × WinRegRecord)
  epoch : ℕ
deriving DecidableEq, Repr

/-- Lookup status of a registry id. -/
inductive RegStatus
  | fresh
  | stale
  | notFound
deriving DecidableEq, Repr

/-- Modelled from the spec: `VersionedElementRegistry.get_element` (not under
the staged sources) returns `(record, status)` with
`status ∈ {fresh, stale, not_found}`, `stale` when the stored epoch is behind
the current global epoch. -/
def regGetElement (r : WinRegistry) (id : String) :
    Option WinRegRecord × RegStatus :=
  match r.entries.find? (fun p => p.1 = id) with
  | none => (none, .notFound)
  | some (_, e) =>
    if e.epoch < r.epoch then (some e, .stale) else (some e, .fresh)

/-- Modelled from the spec: `VersionedElementRegistry.advance_epoch` (not
under the staged sources) strictly increments the global epoch counter. -/
def regAdvanceEpoch (r : WinRegistry) : WinRegistry :=
  { r with epoch := r.epoch + 1 }

/-- `WindowsAccessibility.click_by_id`: refuse when unavailable; on a
`not_found` or `stale` lookup return failure at once with a message telling
the caller to refresh via `get_accessible_elements()`; on a fresh record try
the native `click_input`, then a `pyautogui` click at the stored center, each
advancing the epoch on success. Returns the `(success, message)` pair, the
dispatched clicks, and the registry state after the call. -/
def winClickById (avail : Bool) (r : WinRegistry) (id : String) :
    (Bool × String) × List ClickEv × WinRegistry :=
  if ¬avail then ((false, "Accessibility not available"), [], r)
  else
    match regGetElement r id with
    | (_, .notFound) =>
      ((false, "Element '" ++ id ++
          "' not found. Call get_accessible_elements() to refresh."), [], r)
    | (_, .stale) =>
      ((false, "Element '" ++ id ++
          "' is STALE (UI may have changed). Call get_accessible_elements() " ++
          "to refresh element list."), [], r)
    | (some e, .fresh) =>
      if e.nativeRef then
        ((true, "Clicked '" ++ e.elementInfo.label ++ "'"),
         [ClickEv.nativeClick], regAdvanceEpoch r)
      else
        match e.elementInfo.center with
        | some (x, y) =>
          ((true, "Clicked '" ++ e.elementInfo.label ++ "' at (" ++
              toString x ++ ", " ++ toString y ++ ")"),
           [ClickEv.at x y], regAdvanceEpoch r)
        | none =>
          ((false, "No click method available for '" ++
              e.elementInfo.label ++ "'"), [], r)
    | (none, .fresh) => ((false, "No click method available for ''"), [], r)

/-! ## `TypeTextTool._run` -/

/-- The observable input effect of one `type_text` call. -/
inductive TypeEffect
  | noEffect
  | hotkey (keys : List PyStr)
  | pressEnter
  | pasted (t : PyStr)
  | typed (t : PyStr)
deriving DecidableEq, Repr

/-- The `ActionResult` fields `type_text` fills. -/
structure TypeResultR where
  success : Bool
  actionTaken : PyStr
  confidence : ℚ
  errorMsg : Option PyStr
deriving DecidableEq, Repr

/-- The `key_map` dictionary lookup `key_map.get(k, k)`. -/
def keyMapLookup (k : PyStr) : PyStr :=
  if k = pyStr "cmd" then pyStr "command"
  else if k = pyStr "ctrl" then pyStr "ctrl"
  else if k = pyStr "alt" then pyStr "alt"
  else if k = pyStr "shift" then pyStr "shift"
  else k

/-- `TypeTextTool._run`: empty text fails; text containing `+` that splits
into at most 4 parts is dispatched as a hotkey chord (keys stripped, lowered
and passed through `key_map`); `\n` (or the literal two-character `\\n`)
presses Enter; otherwise the smart-paste predicate chooses between pasting
and typing. -/
def typeTextRun (text : PyStr) (useClipboard : Bool) : TypeResultR × TypeEffect :=
  if text = [] then
    ({ success := false, actionTaken := pyStr "Type failed", confidence := 0,
       errorMsg := some (pyStr "No text provided") }, .noEffect)
  else if pyContains text (pyStr "+") ∧ (pySplitOn '+' text).length ≤ 4 then
    let keys := (pySplitOn '+' text).map (fun k => pyLower (pyStrip k))
    ({ success := true, actionTaken := pyStr "Pressed hotkey: " ++ text,
       confidence := 1, errorMsg := none }, .hotkey (keys.map keyMapLookup))
  else if text = pyStr "\\n" ∨ text = pyStr "\n" then
    ({ success := true, actionTaken := pyStr "Pressed Enter", confidence := 1,
       errorMsg := none }, .pressEnter)
  else
    let shouldPaste :=
      50 < text.length ∨ pyStartsWith text (pyStr "/") ∨
        pyStartsWith text (pyStr "~") ∨ pyContains text (pyStr "\\") ∨
        (pyContains text (pyStr "/") ∧ 20 < text.length) ∨
        pyStartsWith text (pyStr "http://") ∨
        pyStartsWith text (pyStr "https://")
    let res : TypeResultR :=
      { success := true,
        actionTaken := pyStr "Typed " ++ pyOfInt (text.length : ℤ) ++
          pyStr " chars",
        confidence := 1, errorMsg := none }
    if useClipboard ∨ shouldPaste then (res, .pasted text)
    else (res, .typed text)

/-! ## Windows `_extract_element_info` (`windows_accessibility.py`) -/

/-- The UIA attributes `_extract_element_info` reads: `window_text()`,
`element_info.name`, the rectangle (`hasRect` models `container.rectangle()`
succeeding), the category from `_categorize_element`, and `is_enabled()`. -/
structure WinRawElem where
  identifier : PyStr
  description : PyStr
  hasRect : Bool
  x : ℚ
  y : ℚ
  w : ℚ
  h : ℚ
  category : PyStr
  enabled : Bool
deriving DecidableEq, Repr

/-- The dictionary `windows_accessibility._extract_element_info` returns:
center and bounds stay `None` when the rectangle read fails. -/
structure WinExtInfo where
  identifier : PyStr
  description : PyStr
  label : PyStr
  category : PyStr
  center : Option (ℤ × ℤ)
  bounds : Option (ℤ × ℤ × ℤ × ℤ)
  enabled : Bool
deriving DecidableEq, Repr

/-- `windows_accessibility._extract_element_info`: skip elements with neither
`window_text` nor name; with a readable rectangle reject `w <= 0 or h <= 0`,
an origin outside `[0, screen_width] × [0, screen_height]`, and menu-bar
elements with `y < 40`; when the rectangle read fails the element is still
returned, with `center = bounds = None`. -/
def winExtract (screenW screenH : ℚ) (e : WinRawElem) : Option WinExtInfo :=
  if e.identifier = [] ∧ e.description = [] then none
  else
    let label := if e.description ≠ [] then e.description else e.identifier
    if e.hasRect then
      if e.w ≤ 0 ∨ e.h ≤ 0 then none
      else if e.x < 0 ∨ e.y < 0 ∨ e.x > screenW ∨ e.y > screenH then none
      else if e.y < 40 ∧ e.category = pyStr "menu_bar" then none
      else
        some { identifier := e.identifier, description := e.description,
               label := label, category := e.category,
               center := some (pyInt (e.x + e.w / 2), pyInt (e.y + e.h / 2)),
               bounds := some (pyInt e.x, pyInt e.y, pyInt e.w, pyInt e.h),
               enabled := e.enabled }
    else
      some { identifier := e.identifier, description := e.description,
             label := label, category := e.category,
             center := none, bounds := none, enabled := e.enabled }

mutual
/-- Truncation of a tree to its top `n + 1` levels of nodes. -/
def truncTree : ℕ → AXTree → AXTree
  | 0, .node e _ => .node e .nil
  | n + 1, .node e cs => .node e (truncForest n cs)
/-- Truncation of each sibling subtree. -/
def truncForest : ℕ → AXForest → AXForest
  | _, .nil => .nil
  | n, .cons t f => .cons (truncTree n t) (truncForest n f)
end

/-- A uniform node whose extraction succeeds, for building deep chains. -/
def chainElem : MacRawElem :=
  { role := pyStr "AXButton", hasActions := true, enabled := true,
    hasGeom := true, x := 1, y := 2, w := 3, h := 4, label := pyStr "OK",
    identifier := [] }

/-- A single-branch tree of `n + 1` nodes: the deepest node sits `n` levels
below the root. -/
def chainTree : ℕ → AXTree
  | 0 => .node chainElem .nil
  | n + 1 => .node chainElem (.cons (chainTree n) .nil)

/-- A button node handle supporting the native `Press` action. -/
def pressableButton : MacNodeCore := ⟨pyStr "AXButton", true, false, [], none⟩

/-- A registered non-static-text entry with both a center and a pressable
handle. -/
def pressableEntry : MacRegEntry :=
  ⟨some ⟨pressableButton, []⟩, pyStr "OK", some (10, 10), pyStr "Button"⟩

/-- A registry holding one record registered at epoch 0 while the global
epoch has advanced to 1: its id is stale. -/
def staleReg : WinRegistry :=
  ⟨[("btn-1", ⟨⟨"OK", "Calculator", some (5, 5)⟩, true, 0⟩)], 1⟩

/-- A lower-confidence OCR hit of a duplicated label in the upper part of a
1000-pixel-high screenshot. -/
def upperDelete : TextItem := ⟨pyStr "Delete", 50, 100, 1⟩

/-- The OCR-space candidate of the spec's scenario: text at `(240, 680)`. -/
def retinaEnv : PipeEnv :=
  ⟨false, false, false, [], none, 2, 1000, 1000,
   [⟨pyStr "OK", 240, 680, 9/10⟩], [], true⟩

/-- The running-application environment with only Safari running and
frontmost. -/
def safariEnv : MacEnv :=
  ⟨[⟨some (pyStr "Safari"), some (pyStr "com.apple.Safari")⟩],
   some (pyStr "Safari")⟩

/-- A pipeline environment for an unresolved app: accessibility is up but
tier 1 finds nothing and there are no window bounds; full-screen OCR sees the
character `7` at `(100, 200)`. -/
def calcMissEnv : PipeEnv :=
  ⟨true, true, false, [], none, 1, 800, 600, [⟨pyStr "7", 100, 200, 8/10⟩],
   [], true⟩

/-- A pipeline environment for an unresolved app where OCR also finds
nothing at all. -/
def missPipeEnv : PipeEnv :=
  ⟨true, true, false, [], none, 1, 800, 600, [], [], true⟩

/-- A pipeline environment with accessibility down and no OCR text at all. -/
def exhaustedEnv : PipeEnv :=
  ⟨false, false, false, [], none, 1, 800, 600, [], [], true⟩

/-- A detector environment whose OCR finds the target at confidence 0.7. -/
def detEnv : DetectorEnv := ⟨[⟨pyStr "OK", 10, 10, 7/10⟩], fun _ => []⟩

/-- A pipeline environment whose only OCR text is an exact match for the
target with confidence 0. -/
def zeroConfEnv : PipeEnv :=
  ⟨false, false, false, [], none, 1, 800, 600, [],
   [⟨pyStr "ok", 100, 200, 0⟩], true⟩

/-! ## Claim theorems and supporting lemmas -/

/-- C1: in the fuzzy OCR scoring stage, for every target `t` and candidates
`A`, `B` with confidences in `[0, 1]`, if `A`'s lowered stripped text equals
`t` while `B`'s merely starts with `t` (and differs from it), then `A` scores
`1000 + confidence*100`, `B` scores `700 + confidence*100`, `A`'s score is
strictly greater whatever the confidences, and the fuzzy loop selects `A`
over `B` in either candidate order. -/
theorem fuzzyScore_exact_beats_prefix
    (t : PyStr) (A B : TextItem)
    (hA : pyNorm A.text = t)
    (hBne : pyNorm B.text ≠ t)
    (hBpre : pyStartsWith (pyNorm B.text) t = true)
    (hcA0 : 0 ≤ A.confidence) (hcA1 : A.confidence ≤ 1)
    (hcB0 : 0 ≤ B.confidence) (hcB1 : B.confidence ≤ 1) :
    fuzzyScore t A = some (1000 + A.confidence * 100) ∧
    fuzzyScore t B = some (700 + B.confidence * 100) ∧
    700 + B.confidence * 100 < 1000 + A.confidence * 100 ∧
    bestFuzzy t [A, B] = some A ∧ bestFuzzy t [B, A] = some A := by
  have hsA : fuzzyScore t A = some (1000 + A.confidence * 100) := by
    simp [fuzzyScore, hA]
  have hsB : fuzzyScore t B = some (700 + B.confidence * 100) := by
    simp [fuzzyScore, hBne, hBpre]
  refine ⟨hsA, hsB, by linarith, ?_, ?_⟩
  · simp only [bestFuzzy, List.foldl, bestFuzzyStep, hsA, hsB]
    rw [if_pos (show (1000 + A.confidence * 100 : ℚ) > -999 by linarith)]
    rw [if_neg (show ¬((700 + B.confidence * 100 : ℚ) > 1000 + A.confidence * 100) by linarith)]
  · simp only [bestFuzzy, List.foldl, bestFuzzyStep, hsA, hsB]
    rw [if_pos (show (700 + B.confidence * 100 : ℚ) > -999 by linarith)]
    rw [if_pos (show (1000 + A.confidence * 100 : ℚ) > 700 + B.confidence * 100 by linarith)]

/-- C1 witness: the spec's own example, `"Submit"` at confidence 0.9 against
`"Submit Now"` at confidence 0.95. -/
theorem fuzzyScore_exact_beats_prefix_witness :
    fuzzyScore (pyStr "submit") ⟨pyStr "Submit", 0, 0, 9/10⟩ =
      some (1000 + (9/10) * 100) ∧
    fuzzyScore (pyStr "submit") ⟨pyStr "Submit Now", 100, 200, 19/20⟩ =
      some (700 + (19/20) * 100) ∧
    700 + (19/20 : ℚ) * 100 < 1000 + (9/10) * 100 ∧
    bestFuzzy (pyStr "submit")
      [⟨pyStr "Submit", 0, 0, 9/10⟩, ⟨pyStr "Submit Now", 100, 200, 19/20⟩] =
      some ⟨pyStr "Submit", 0, 0, 9/10⟩ ∧
    bestFuzzy (pyStr "submit")
      [⟨pyStr "Submit Now", 100, 200, 19/20⟩, ⟨pyStr "Submit", 0, 0, 9/10⟩] =
      some ⟨pyStr "Submit", 0, 0, 9/10⟩ :=
  fuzzyScore_exact_beats_prefix (pyStr "submit")
    ⟨pyStr "Submit", 0, 0, 9/10⟩ ⟨pyStr "Submit Now", 100, 200, 19/20⟩
    (by decide) (by decide) (by decide)
    (by norm_num) (by norm_num) (by norm_num) (by norm_num)

/-- C10 (implicit): every non-empty text containing `+` that splits on `+`
into at most 4 parts is dispatched by `TypeTextTool._run` as a hotkey chord
(parts stripped, lowered and mapped through `key_map`, which sends `cmd` to
`command`), returning success with confidence 1.0 and a `Pressed hotkey`
action; such text is never typed or pasted literally, whatever the
`use_clipboard` flag. -/
theorem typeText_plus_is_hotkey (text : PyStr) (uc : Bool)
    (hne : text ≠ [])
    (hplus : pyContains text (pyStr "+") = true)
    (hparts : (pySplitOn '+' text).length ≤ 4) :
    (typeTextRun text uc).1.success = true ∧
    (typeTextRun text uc).1.confidence = 1 ∧
    (typeTextRun text uc).1.actionTaken = pyStr "Pressed hotkey: " ++ text ∧
    (typeTextRun text uc).2 =
      TypeEffect.hotkey
        (((pySplitOn '+' text).map (fun k => pyLower (pyStrip k))).map
          keyMapLookup) ∧
    (∀ t', (typeTextRun text uc).2 ≠ TypeEffect.typed t' ∧
      (typeTextRun text uc).2 ≠ TypeEffect.pasted t') ∧
    keyMapLookup (pyStr "cmd") = pyStr "command" := by
  simp only [typeTextRun, if_neg hne, hplus, hparts, if_pos (And.intro rfl hparts)]
  refine ⟨rfl, rfl, rfl, rfl, fun t' => ⟨?_, ?_⟩, by decide⟩ <;> simp

/-- C10 witness: `"2+2"` is pressed as the hotkey chord `["2", "2"]`, not
typed. -/
theorem typeText_plus_is_hotkey_witness :
    (typeTextRun (pyStr "2+2") false).1.success = true ∧
    (typeTextRun (pyStr "2+2") false).1.confidence = 1 ∧
    (typeTextRun (pyStr "2+2") false).1.actionTaken =
      pyStr "Pressed hotkey: " ++ pyStr "2+2" ∧
    (typeTextRun (pyStr "2+2") false).2 =
      TypeEffect.hotkey
        (((pySplitOn '+' (pyStr "2+2")).map (fun k => pyLower (pyStrip k))).map
          keyMapLookup) ∧
    (∀ t', (typeTextRun (pyStr "2+2") false).2 ≠ TypeEffect.typed t' ∧
      (typeTextRun (pyStr "2+2") false).2 ≠ TypeEffect.pasted t') ∧
    keyMapLookup (pyStr "cmd") = pyStr "command" :=
  typeText_plus_is_hotkey (pyStr "2+2") false (by decide) (by decide) (by decide)

mutual
/-- Every element collected by the macOS traversal was accepted by
`macExtract` for some raw node. -/
theorem macTraverse_mem_ex (sW sH : ℚ) (io : Bool) (t : AXTree) (d : ℕ)
    (i : MacElemInfo) (hmem : i ∈ macTraverse sW sH io t d) :
    ∃ e : MacRawElem, macExtract sW sH e = some i := by
  cases t with
  | node e cs =>
    rw [macTraverse] at hmem
    by_cases hd : d > 40
    · simp [hd] at hmem
    · rw [if_neg hd] at hmem
      by_cases hrole : e.role = pyStr "AXApplication"
      · rw [if_pos hrole] at hmem
        exact macTraverseForest_mem_ex sW sH io cs (d + 1) i hmem
      · rw [if_neg hrole] at hmem
        rcases List.mem_append.mp hmem with hown | hrest
        · by_cases hio : ¬io ∨ (e.hasActions || e.enabled) = true
          · rw [if_pos hio] at hown
            rcases hext : macExtract sW sH e with _ | info
            · rw [hext] at hown; simp at hown
            · rw [hext] at hown
              simp at hown
              exact ⟨e, hown ▸ hext⟩
          · rw [if_neg hio] at hown; simp at hown
        · exact macTraverseForest_mem_ex sW sH io cs (d + 1) i hrest
/-- Forest version of `macTraverse_mem_ex`. -/
theorem macTraverseForest_mem_ex (sW sH : ℚ) (io : Bool) (f : AXForest) (d : ℕ)
    (i : MacElemInfo) (hmem : i ∈ macTraverseForest sW sH io f d) :
    ∃ e : MacRawElem, macExtract sW sH e = some i := by
  cases f with
  | nil => rw [macTraverseForest] at hmem; simp at hmem
  | cons t f' =>
    rw [macTraverseForest] at hmem
    rcases List.mem_append.mp hmem with h1 | h2
    · exact macTraverse_mem_ex sW sH io t d i h1
    · exact macTraverseForest_mem_ex sW sH io f' d i h2
end

/-- Raw-geometry facts extracted from a successful `macExtract`. -/
theorem macExtract_geom (sW sH : ℚ) (e : MacRawElem) (i : MacElemInfo)
    (h : macExtract sW sH e = some i) :
    0 < e.w ∧ 0 < e.h ∧ 0 ≤ e.x ∧ e.x ≤ sW ∧ 0 ≤ e.y ∧ e.y ≤ sH ∧
      i.bounds = (pyInt e.x, pyInt e.y, pyInt e.w, pyInt e.h) := by
  rw [macExtract] at h
  by_cases h1 : ¬e.hasGeom
  · rw [if_pos h1] at h; exact absurd h (by simp)
  rw [if_neg h1] at h
  by_cases h2 : e.w ≤ 0 ∨ e.h ≤ 0
  · rw [if_pos h2] at h; exact absurd h (by simp)
  rw [if_neg h2] at h
  by_cases h3 : e.x < 0 ∨ e.y < 0 ∨ e.x > sW ∨ e.y > sH
  · rw [if_pos h3] at h; exact absurd h (by simp)
  rw [if_neg h3] at h
  push_neg at h2 h3
  by_cases h4 : e.label = [] ∧ e.identifier = [] ∧ ¬e.hasActions
  · rw [if_pos h4] at h; exact absurd h (by simp)
  rw [if_neg h4] at h
  refine ⟨h2.1, h2.2, h3.1, h3.2.2.1, h3.2.1, h3.2.2.2, ?_⟩
  have := Option.some.inj h
  rw [← this]

/-- Raw-geometry facts for a Windows element registered with actual bounds. -/
theorem winExtract_geom (sW sH : ℚ) (e : WinRawElem) (i : WinExtInfo)
    (b : ℤ × ℤ × ℤ × ℤ) (h : winExtract sW sH e = some i)
    (hb : i.bounds = some b) :
    0 < e.w ∧ 0 < e.h ∧ 0 ≤ e.x ∧ e.x ≤ sW ∧ 0 ≤ e.y ∧ e.y ≤ sH := by
  simp only [winExtract] at h
  by_cases h1 : e.identifier = [] ∧ e.description = []
  · simp [h1] at h
  rw [if_neg h1] at h
  by_cases hr : e.hasRect = true
  · rw [if_pos hr] at h
    by_cases h3 : e.w ≤ 0 ∨ e.h ≤ 0
    · simp [h3] at h
    rw [if_neg h3] at h
    by_cases h4 : e.x < 0 ∨ e.y < 0 ∨ e.x > sW ∨ e.y > sH
    · simp [h4] at h
    rw [if_neg h4] at h
    by_cases h5 : e.y < 40 ∧ e.category = pyStr "menu_bar"
    · simp [h5] at h
    push_neg at h3 h4
    exact ⟨h3.1, h3.2, h4.1, h4.2.2.1, h4.2.1, h4.2.2.2⟩
  · rw [if_neg hr] at h
    rw [← Option.some.inj h] at hb
    exact absurd hb (by simp)

/-- C3 (amended): every element record that extraction registers has positive
raw width and height and an origin inside the display
(`0 ≤ x ≤ screen_width`, `0 ≤ y ≤ screen_height`) — on macOS and, for
records that carry bounds at all, on Windows — and every record in the macOS
traversal (`get_elements`) output has stored integer bounds with nonnegative
origin inside the display and nonnegative sizes. The right and bottom edges
of the rectangle are not constrained. -/
theorem registered_geometry_invariant (sW sH : ℚ)
    (e : MacRawElem) (i : MacElemInfo) (hmac : macExtract sW sH e = some i)
    (ew : WinRawElem) (iw : WinExtInfo) (bw : ℤ × ℤ × ℤ × ℤ)
    (hwin : winExtract sW sH ew = some iw) (hbw : iw.bounds = some bw)
    (io : Bool) (t : AXTree) (d : ℕ) (i2 : MacElemInfo)
    (hmem : i2 ∈ macTraverse sW sH io t d) :
    (0 < e.w ∧ 0 < e.h ∧ 0 ≤ e.x ∧ e.x ≤ sW ∧ 0 ≤ e.y ∧ e.y ≤ sH) ∧
    (0 < ew.w ∧ 0 < ew.h ∧ 0 ≤ ew.x ∧ ew.x ≤ sW ∧ 0 ≤ ew.y ∧ ew.y ≤ sH) ∧
    (0 ≤ i2.bounds.1 ∧ (i2.bounds.1 : ℚ) ≤ sW ∧ 0 ≤ i2.bounds.2.1 ∧
      (i2.bounds.2.1 : ℚ) ≤ sH ∧ 0 ≤ i2.bounds.2.2.1 ∧ 0 ≤ i2.bounds.2.2.2) := by
  have hm := macExtract_geom sW sH e i hmac
  have hw := winExtract_geom sW sH ew iw bw hwin hbw
  obtain ⟨e2, he2⟩ := macTraverse_mem_ex sW sH io t d i2 hmem
  have hm2 := macExtract_geom sW sH e2 i2 he2
  obtain ⟨hw2, hh2, hx2, hxW2, hy2, hyH2, hb2⟩ := hm2
  refine ⟨⟨hm.1, hm.2.1, hm.2.2.1, hm.2.2.2.1, hm.2.2.2.2.1, hm.2.2.2.2.2.1⟩,
    hw, ?_⟩
  rw [hb2]
  have px : pyInt e2.x = ⌊e2.x⌋ := by rw [pyInt, if_pos hx2]
  have py : pyInt e2.y = ⌊e2.y⌋ := by rw [pyInt, if_pos hy2]
  have pw : pyInt e2.w = ⌊e2.w⌋ := by rw [pyInt, if_pos (le_of_lt hw2)]
  have ph : pyInt e2.h = ⌊e2.h⌋ := by rw [pyInt, if_pos (le_of_lt hh2)]
  refine ⟨?_, ?_, ?_, ?_, ?_, ?_⟩
  · simpa [px] using Int.floor_nonneg.mpr hx2
  · simp only [px]
    exact le_trans (Int.floor_le e2.x) hxW2
  · simpa [py] using Int.floor_nonneg.mpr hy2
  · simp only [py]
    exact le_trans (Int.floor_le e2.y) hyH2
  · simpa [pw] using Int.floor_nonneg.mpr (le_of_lt hw2)
  · simpa [ph] using Int.floor_nonneg.mpr (le_of_lt hh2)

/-- C3 counterexample: a macOS node at `x = 1900` with width 500 on a
1920-wide display passes every extraction check and is registered, although
its rectangle extends 480 pixels past the right edge of the display — the
claimed "bounds entirely within the display extent" is false. -/
theorem macExtract_out_of_extent_counterexample :
    macExtract 1920 1080
      { role := pyStr "AXButton", hasActions := true, enabled := true,
        hasGeom := true, x := 1900, y := 0, w := 500, h := 10,
        label := pyStr "OK", identifier := [] } =
    some { role := pyStr "Button", label := pyStr "OK", identifier := [],
           center := (2150, 5), bounds := (1900, 0, 500, 10),
           hasActions := true, enabled := true } ∧
    (1920 : ℤ) < 1900 + 500 := by
  constructor
  · rw [macExtract]
    norm_num [pyInt]
    decide
  · norm_num

/-- C3 witness: an in-bounds macOS button, an in-bounds Windows control with
readable rectangle, and a one-node tree whose traversal output record indeed
satisfies the amended invariant. -/
theorem registered_geometry_invariant_witness :
    ((0 : ℚ) < 30 ∧ (0 : ℚ) < 40 ∧ (0 : ℚ) ≤ 10 ∧ (10 : ℚ) ≤ 1920 ∧
      (0 : ℚ) ≤ 20 ∧ (20 : ℚ) ≤ 1080) ∧
    ((0 : ℚ) < 30 ∧ (0 : ℚ) < 40 ∧ (0 : ℚ) ≤ 10 ∧ (10 : ℚ) ≤ 1920 ∧
      (0 : ℚ) ≤ 50 ∧ (50 : ℚ) ≤ 1080) ∧
    (0 ≤ (1900 : ℤ) ∧ ((1900 : ℤ) : ℚ) ≤ 1920 ∧ 0 ≤ (0 : ℤ) ∧
      (((0 : ℤ)) : ℚ) ≤ 1080 ∧ 0 ≤ (500 : ℤ) ∧ 0 ≤ (10 : ℤ)) := by
  have h := registered_geometry_invariant 1920 1080
    { role := pyStr "AXButton", hasActions := true, enabled := true,
      hasGeom := true, x := 10, y := 20, w := 30, h := 40,
      label := pyStr "OK", identifier := [] }
    { role := pyStr "Button", label := pyStr "OK", identifier := [],
      center := (25, 40), bounds := (10, 20, 30, 40),
      hasActions := true, enabled := true }
    (by rw [macExtract]; norm_num [pyInt]; decide)
    { identifier := pyStr "ok", description := pyStr "OK", hasRect := true,
      x := 10, y := 50, w := 30, h := 40, category := pyStr "interactive",
      enabled := true }
    { identifier := pyStr "ok", description := pyStr "OK", label := pyStr "OK",
      category := pyStr "interactive", center := some (25, 70),
      bounds := some (10, 50, 30, 40), enabled := true }
    (10, 50, 30, 40)
    (by rw [winExtract]; norm_num [pyInt]; decide)
    rfl
    false
    (AXTree.node
      { role := pyStr "AXButton", hasActions := true, enabled := true,
        hasGeom := true, x := 1900, y := 0, w := 500, h := 10,
        label := pyStr "OK", identifier := [] } AXForest.nil)
    0
    { role := pyStr "Button", label := pyStr "OK", identifier := [],
      center := (2150, 5), bounds := (1900, 0, 500, 10),
      hasActions := true, enabled := true }
    (by
      rw [macTraverse, macTraverseForest]
      norm_num
      rw [macExtract]
      norm_num [pyInt]
      decide)
  simpa using h

/-- The macOS traversal collects nothing once the depth guard trips. -/
theorem macTraverse_depth_exceed (sW sH : ℚ) (io : Bool) (t : AXTree) (d : ℕ)
    (hd : 40 < d) : macTraverse sW sH io t d = [] := by
  cases t with
  | node e cs => rw [macTraverse, if_pos hd]

/-- Forest version of `macTraverse_depth_exceed`. -/
theorem macTraverseForest_depth_exceed (sW sH : ℚ) (io : Bool) :
    ∀ (f : AXForest) (d : ℕ), 40 < d → macTraverseForest sW sH io f d = []
  | .nil, _, _ => by rw [macTraverseForest]
  | .cons t f', d, hd => by
    rw [macTraverseForest, macTraverse_depth_exceed sW sH io t d hd,
      macTraverseForest_depth_exceed sW sH io f' d hd]
    rfl

/-- The Windows traversal collects nothing once the depth guard trips. -/
theorem winTraverse_depth_exceed (nm : MacRawElem → Option MacElemInfo)
    (io : Bool) (t : AXTree) (d : ℕ) (hd : winMaxDepth < d) :
    winTraverse nm io t d = [] := by
  cases t with
  | node e cs => rw [winTraverse, if_pos hd]

/-- Forest version of `winTraverse_depth_exceed`. -/
theorem winTraverseForest_depth_exceed (nm : MacRawElem → Option MacElemInfo)
    (io : Bool) :
    ∀ (f : AXForest) (d : ℕ), winMaxDepth < d → winTraverseForest nm io f d = []
  | .nil, _, _ => by rw [winTraverseForest]
  | .cons t f', d, hd => by
    rw [winTraverseForest, winTraverse_depth_exceed nm io t d hd,
      winTraverseForest_depth_exceed nm io f' d hd]
    rfl

/-- The Linux traversal collects nothing once the depth guard trips. -/
theorem linuxCollect_depth_exceed (ex : MacRawElem → Option MacElemInfo)
    (t : AXTree) (d : ℕ) (hd : 25 < d) : linuxCollect ex t d = [] := by
  cases t with
  | node e cs => rw [linuxCollect, if_pos hd]

/-- Forest version of `linuxCollect_depth_exceed`. -/
theorem linuxCollectForest_depth_exceed (ex : MacRawElem → Option MacElemInfo) :
    ∀ (f : AXForest) (d : ℕ), 25 < d → linuxCollectForest ex f d = []
  | .nil, _, _ => by rw [linuxCollectForest]
  | .cons t f', d, hd => by
    rw [linuxCollectForest, linuxCollect_depth_exceed ex t d hd,
      linuxCollectForest_depth_exceed ex f' d hd]
    rfl

mutual
/-- Below depth allowance `n` with `d + n = 40`, truncation does not change
the macOS traversal: only the guard-reachable part of the tree is explored. -/
theorem macTraverse_truncEq (sW sH : ℚ) (io : Bool) (t : AXTree) (d n : ℕ)
    (h : d + n = 40) :
    macTraverse sW sH io t d = macTraverse sW sH io (truncTree n t) d := by
  cases t with
  | node e cs =>
    cases n with
    | zero =>
      rw [truncTree]
      simp only [macTraverse]
      rw [macTraverseForest_depth_exceed sW sH io cs (d + 1) (by omega)]
      simp only [macTraverseForest]
    | succ m =>
      rw [truncTree]
      simp only [macTraverse]
      rw [macTraverseForest_truncEq sW sH io cs (d + 1) m (by omega)]
/-- Forest version of `macTraverse_truncEq`. -/
theorem macTraverseForest_truncEq (sW sH : ℚ) (io : Bool) (f : AXForest)
    (d n : ℕ) (h : d + n = 40) :
    macTraverseForest sW sH io f d =
      macTraverseForest sW sH io (truncForest n f) d := by
  cases f with
  | nil => rw [truncForest]
  | cons t f' =>
    rw [truncForest]
    simp only [macTraverseForest]
    rw [← macTraverse_truncEq sW sH io t d n h,
      ← macTraverseForest_truncEq sW sH io f' d n h]
end

mutual
/-- Windows version of `macTraverse_truncEq`, at allowance `d + n = 25`. -/
theorem winTraverse_truncEq (nm : MacRawElem → Option MacElemInfo) (io : Bool)
    (t : AXTree) (d n : ℕ) (h : d + n = winMaxDepth) :
    winTraverse nm io t d = winTraverse nm io (truncTree n t) d := by
  cases t with
  | node e cs =>
    cases n with
    | zero =>
      rw [truncTree]
      simp only [winTraverse]
      rw [winTraverseForest_depth_exceed nm io cs (d + 1) (by omega)]
      simp only [winTraverseForest]
    | succ m =>
      rw [truncTree]
      simp only [winTraverse]
      rw [winTraverseForest_truncEq nm io cs (d + 1) m (by omega)]
/-- Forest version of `winTraverse_truncEq`. -/
theorem winTraverseForest_truncEq (nm : MacRawElem → Option MacElemInfo)
    (io : Bool) (f : AXForest) (d n : ℕ) (h : d + n = winMaxDepth) :
    winTraverseForest nm io f d = winTraverseForest nm io (truncForest n f) d := by
  cases f with
  | nil => rw [truncForest]
  | cons t f' =>
    rw [truncForest]
    simp only [winTraverseForest]
    rw [← winTraverse_truncEq nm io t d n h,
      ← winTraverseForest_truncEq nm io f' d n h]
end

mutual
/-- Linux version of `macTraverse_truncEq`, at allowance `d + n = 25`. -/
theorem linuxCollect_truncEq (ex : MacRawElem → Option MacElemInfo)
    (t : AXTree) (d n : ℕ) (h : d + n = 25) :
    linuxCollect ex t d = linuxCollect ex (truncTree n t) d := by
  cases t with
  | node e cs =>
    cases n with
    | zero =>
      rw [truncTree]
      simp only [linuxCollect]
      rw [linuxCollectForest_depth_exceed ex cs (d + 1) (by omega)]
      simp only [linuxCollectForest]
    | succ m =>
      rw [truncTree]
      simp only [linuxCollect]
      rw [linuxCollectForest_truncEq ex cs (d + 1) m (by omega)]
/-- Forest version of `linuxCollect_truncEq`. -/
theorem linuxCollectForest_truncEq (ex : MacRawElem → Option MacElemInfo)
    (f : AXForest) (d n : ℕ) (h : d + n = 25) :
    linuxCollectForest ex f d = linuxCollectForest ex (truncForest n f) d := by
  cases f with
  | nil => rw [truncForest]
  | cons t f' =>
    rw [truncForest]
    simp only [linuxCollectForest]
    rw [← linuxCollect_truncEq ex t d n h,
      ← linuxCollectForest_truncEq ex f' d n h]
end

/-- Extraction of the chain node evaluates to a registered record. -/
theorem macExtract_chainElem :
    macExtract 1920 1080 chainElem =
      some { role := pyStr "Button", label := pyStr "OK", identifier := [],
             center := (2, 4), bounds := (1, 2, 3, 4),
             hasActions := true, enabled := true } := by
  rw [macExtract]
  norm_num [chainElem, pyInt]
  decide

/-- Within the depth allowance, the macOS traversal of an `n + 1`-node chain
collects every node. -/
theorem macTraverse_chain_len :
    ∀ (n d : ℕ), d + n ≤ 40 →
      (macTraverse 1920 1080 false (chainTree n) d).length = n + 1 := by
  intro n
  induction n with
  | zero =>
    intro d hd
    rw [chainTree, macTraverse, if_neg (show ¬(d > 40) by omega),
      if_neg (show ¬(chainElem.role = pyStr "AXApplication") by decide),
      macExtract_chainElem]
    simp [macTraverseForest]
  | succ n ih =>
    intro d hd
    rw [chainTree, macTraverse, if_neg (show ¬(d > 40) by omega),
      if_neg (show ¬(chainElem.role = pyStr "AXApplication") by decide),
      macExtract_chainElem]
    have hf : macTraverseForest 1920 1080 false
        (.cons (chainTree n) .nil) (d + 1) =
        macTraverse 1920 1080 false (chainTree n) (d + 1) ++
          macTraverseForest 1920 1080 false .nil (d + 1) := by
      simp only [macTraverseForest]
    rw [hf]
    simp [macTraverseForest, ih (d + 1) (by omega)]

/-- C8 counterexample: the macOS traversal visits and collects a node 27
levels deep — a 28-node single-branch chain yields all 28 records — so no
fixed bound between 20 and 25 governs the macOS backend (a bound of 25 would
yield at most 26 records). -/
theorem macTraverse_deep_chain_counterexample :
    (macTraverse 1920 1080 false (chainTree 27) 0).length = 28 ∧ ¬(28 ≤ 26) :=
  ⟨macTraverse_chain_len 27 0 (by omega), by omega⟩

/-- C8 (amended): every accessibility traversal is a recursive descent that
stops at a fixed maximum depth — 40 on the macOS backend, 25
(`self._max_depth`) on the Windows backend and 25 on the Linux backend — so
on every backend the traversal result is already determined by the
guard-reachable truncation of the tree, and traversal terminates even on
pathological trees. -/
theorem traversal_depth_bounded (sW sH : ℚ) (io : Bool)
    (nm ex : MacRawElem → Option MacElemInfo) (t : AXTree) (d : ℕ) :
    (40 < d → macTraverse sW sH io t d = []) ∧
    (winMaxDepth < d → winTraverse nm io t d = []) ∧
    (25 < d → linuxCollect ex t d = []) ∧
    winMaxDepth = 25 ∧
    macTraverse sW sH io t 0 = macTraverse sW sH io (truncTree 40 t) 0 ∧
    winTraverse nm io t 0 = winTraverse nm io (truncTree 25 t) 0 ∧
    linuxCollect ex t 0 = linuxCollect ex (truncTree 25 t) 0 :=
  ⟨macTraverse_depth_exceed sW sH io t d,
   winTraverse_depth_exceed nm io t d,
   linuxCollect_depth_exceed ex t d,
   rfl,
   macTraverse_truncEq sW sH io t 0 40 rfl,
   winTraverse_truncEq nm io t 0 25 rfl,
   linuxCollect_truncEq ex t 0 25 rfl⟩

/-- C7 (amended): `MacOSAccessibility.click_by_id` tries, in order: (a) for
`StaticText`/`Text` roles only, `_click_node` on the nearest clickable
ancestor within 5 levels; (b) a synthesized coordinate click at the element's
registered center — dispatched even when the element's own handle supports a
native press; (c) `_click_node` on the element's own handle, which itself
tries `Press`, `AXPress`, a press/click action, then a coordinate click at
the node's center; failure is declared only after the applicable tiers
fail. -/
theorem macClickById_tier_order (e : MacRegEntry) (c : ℤ × ℤ) (n : MacNode)
    (p : MacNodeCore) :
    (e.role ≠ pyStr "StaticText" → e.role ≠ pyStr "Text" → e.center = some c →
      macClickById true (some e) = .centerClick c.1 c.2) ∧
    ((e.role = pyStr "StaticText" ∨ e.role = pyStr "Text") → e.node = some n →
      findClickableParent n.ancestors = some p → clickNode p ≠ .noMethod →
      macClickById true (some e) = .parentClick (clickNode p)) ∧
    (e.role ≠ pyStr "StaticText" → e.role ≠ pyStr "Text" → e.center = none →
      e.node = some n → clickNode n.core ≠ .noMethod →
      macClickById true (some e) = .nodeClick (clickNode n.core)) ∧
    (e.role ≠ pyStr "StaticText" → e.role ≠ pyStr "Text" → e.center = none →
      e.node = some n → clickNode n.core = .noMethod →
      macClickById true (some e) = .noMethod) ∧
    (n.core.hasPress = true → clickNode n.core = .press) ∧
    macClickById false (some e) = .notAvailable ∧
    macClickById true none = .notFound := by
  refine ⟨?_, ?_, ?_, ?_, ?_, by simp [macClickById], by simp [macClickById]⟩
  · intro h1 h2 hc
    simp [macClickById, h1, h2, hc]
  · intro hrole hn hp ho
    simp only [macClickById, if_neg (by simp : ¬(true = false)), hn]
    rw [if_pos hrole]
    simp [hp, ho]
  · intro h1 h2 hc hn ho
    simp [macClickById, h1, h2, hc, hn, ho]
  · intro h1 h2 hc hn ho
    simp [macClickById, h1, h2, hc, hn, ho]
  · intro hp
    rw [clickNode, if_pos hp]

/-- C7 counterexample: an ordinary (non-static-text) button whose handle
supports the native `Press` action but whose registered center is present is
clicked by coordinates — the native action is not attempted first, refuting
the claimed native-press → ancestor → coordinate order. -/
theorem macClickById_coord_first_counterexample :
    macClickById true (some pressableEntry) = .centerClick 10 10 ∧
    pressableEntry.node = some ⟨pressableButton, []⟩ ∧
    clickNode pressableButton = .press ∧
    MacClickRes.centerClick 10 10 ≠ .nodeClick (clickNode pressableButton) := by
  refine ⟨by decide, by decide, by decide, by decide⟩

/-- C6: for every element id whose registry lookup reports `stale` or
`not_found`, `WindowsAccessibility.click_by_id` returns failure immediately
with the message telling the caller to refresh via
`get_accessible_elements()`, dispatches no click, and leaves the registry
unchanged (no re-traversal, re-resolution or retry — the epoch is not even
advanced). -/
theorem winClickById_no_auto_repair (r : WinRegistry) (id : String)
    (h : (regGetElement r id).2 = RegStatus.notFound ∨
      (regGetElement r id).2 = RegStatus.stale) :
    (winClickById true r id).1.1 = false ∧
    ((regGetElement r id).2 = RegStatus.notFound →
      (winClickById true r id).1.2 = "Element '" ++ id ++
        "' not found. Call get_accessible_elements() to refresh.") ∧
    ((regGetElement r id).2 = RegStatus.stale →
      (winClickById true r id).1.2 = "Element '" ++ id ++
        "' is STALE (UI may have changed). Call get_accessible_elements() " ++
        "to refresh element list.") ∧
    (winClickById true r id).2.1 = [] ∧
    (winClickById true r id).2.2 = r := by
  rcases hp : regGetElement r id with ⟨o, st⟩
  rcases h with h | h <;> rw [hp] at h <;> subst h <;>
    simp [winClickById, hp]

/-- C6 witness: a concrete stale id (registered at epoch 0, global epoch 1)
fails fast with the refresh message, no click, registry unchanged. -/
theorem winClickById_no_auto_repair_witness :
    (winClickById true staleReg "btn-1").1.1 = false ∧
    ((regGetElement staleReg "btn-1").2 = RegStatus.notFound →
      (winClickById true staleReg "btn-1").1.2 = "Element '" ++ "btn-1" ++
        "' not found. Call get_accessible_elements() to refresh.") ∧
    ((regGetElement staleReg "btn-1").2 = RegStatus.stale →
      (winClickById true staleReg "btn-1").1.2 = "Element '" ++ "btn-1" ++
        "' is STALE (UI may have changed). Call get_accessible_elements() " ++
        "to refresh element list.") ∧
    (winClickById true staleReg "btn-1").2.1 = [] ∧
    (winClickById true staleReg "btn-1").2.2 = staleReg :=
  winClickById_no_auto_repair staleReg "btn-1" (Or.inr (by decide))

/-- Membership across stable insertion. -/
theorem mem_insertYX (a b : TextItem) :
    ∀ l : List TextItem, (a ∈ insertYX b l ↔ a = b ∨ a ∈ l)
  | [] => by simp [insertYX]
  | c :: t => by
    rw [insertYX]
    split_ifs with hle
    · simp
    · simp only [List.mem_cons, mem_insertYX a b t]
      tauto

/-- The stable sort of the spatial filter permutes membership only. -/
theorem mem_pySortYX (a : TextItem) :
    ∀ l : List TextItem, (a ∈ pySortYX l ↔ a ∈ l)
  | [] => by simp [pySortYX]
  | b :: t => by
    rw [pySortYX, mem_insertYX a b (pySortYX t), mem_pySortYX a t]
    simp

/-- Stripping the order-filter stage preserves membership in its input. -/
theorem mem_of_orderStage {it : TextItem} {cl : PyStr} {v : List TextItem}
    (hmem : it ∈ orderStage cl v) : it ∈ v := by
  unfold orderStage at hmem
  split_ifs at hmem
  · exact (mem_pySortYX it v).mp (List.take_subset 3 (pySortYX v) hmem)
  · exact (mem_pySortYX it v).mp
      (List.drop_subset (v.length - 3) (pySortYX v) hmem)
  · exact hmem

/-- Stripping the horizontal-filter stage preserves membership in its
input. -/
theorem mem_of_horizStage {it : TextItem} {cl : PyStr} {w : ℚ}
    {v : List TextItem} (hmem : it ∈ horizStage cl w v) : it ∈ v := by
  unfold horizStage at hmem
  split_ifs at hmem
  · exact List.mem_of_mem_filter hmem
  · exact List.mem_of_mem_filter hmem
  · exact hmem

/-- C5 (amended): when the visual context contains `bottom` (or `below`) and
contains neither `top` nor `above`, every candidate surviving the spatial
filter has center y strictly greater than 0.6 of the screenshot height —
candidates at or above that line are removed before scoring, whatever their
confidence; a context containing `top` keeps only center y below 0.4 of the
height; the pure hints `first` and `last` keep exactly the first,
respectively last, 3 candidates in `(y, x)` reading order. -/
theorem spatialFilter_directional (ctx : PyStr) (h w : ℚ)
    (items : List TextItem) (it : TextItem) :
    ((pyContains (pyLower ctx) (pyStr "bottom") = true ∨
        pyContains (pyLower ctx) (pyStr "below") = true) →
      pyContains (pyLower ctx) (pyStr "top") = false →
      pyContains (pyLower ctx) (pyStr "above") = false →
      it ∈ spatialFilter ctx h w items → it.cy > h * (6/10)) ∧
    (pyContains (pyLower ctx) (pyStr "top") = true →
      it ∈ spatialFilter ctx h w items → it.cy < h * (4/10)) ∧
    spatialFilter (pyStr "first") h w items = (pySortYX items).take 3 ∧
    spatialFilter (pyStr "last") h w items =
      (pySortYX items).drop (items.length - 3) := by
  refine ⟨?_, ?_, ?_, ?_⟩
  · intro hbb htop habove hmem
    rw [spatialFilter] at hmem
    have h2 := mem_of_horizStage (mem_of_orderStage hmem)
    rw [vertStage, if_neg (by simp [htop, habove]),
      if_pos (by rcases hbb with hb | hb <;> simp [hb])] at h2
    have := (List.mem_filter.mp h2).2
    simpa using this
  · intro htop hmem
    rw [spatialFilter] at hmem
    have h2 := mem_of_horizStage (mem_of_orderStage hmem)
    rw [vertStage, if_pos (by simp [htop])] at h2
    have := (List.mem_filter.mp h2).2
    simpa using this
  · rw [spatialFilter, vertStage, if_neg (by decide), if_neg (by decide),
      if_neg (by decide), horizStage, if_neg (by decide), if_neg (by decide),
      orderStage, if_pos (by decide)]
  · rw [spatialFilter, vertStage, if_neg (by decide), if_neg (by decide),
      if_neg (by decide), horizStage, if_neg (by decide), if_neg (by decide),
      orderStage, if_neg (by decide), if_pos (by decide)]

/-- C5 counterexample: the context `"above the bottom"` contains `bottom`,
yet a candidate at center y = 100 ≤ 600 survives the filter (the `elif`
chain routes the context to the `top`/`above` branch), refuting the claim
for every context containing `bottom`. -/
theorem spatialFilter_bottom_counterexample :
    pyContains (pyLower (pyStr "above the bottom")) (pyStr "bottom") = true ∧
    spatialFilter (pyStr "above the bottom") 1000 1000 [upperDelete] =
      [upperDelete] ∧
    ¬(upperDelete.cy > 1000 * (6/10)) := by
  refine ⟨by decide, ?_, by norm_num [upperDelete]⟩
  rw [spatialFilter, vertStage, if_pos (by decide)]
  have hv : List.filter (fun it => decide (it.cy < 1000 * (4/10)))
      [upperDelete] = [upperDelete] := by
    rw [List.filter_cons]
    norm_num [upperDelete]
  rw [hv, horizStage, if_neg (by decide), if_neg (by decide),
    orderStage, if_neg (by decide), if_neg (by decide)]

/-- C4: in the OCR tier, the dispatched screen coordinate is, per axis,
`int(raw / scaling) + offset`; with accessibility unavailable there is no
window crop, the offsets are 0, and the click goes to
`(int(cx / scaling), int(cy / scaling))`, reported back in the result. -/
theorem ocr_coordinate_correction (env : PipeEnv) (target : PyStr)
    (vc : Option PyStr) (app : Option PyStr) (e : TextItem)
    (rest : List TextItem)
    (hacc : env.accAvailable = false)
    (hfind : env.findTextResult = e :: rest) :
    (clickRun env target vc app).1.coordinates =
      some (pyInt (e.cx / env.scaling), pyInt (e.cy / env.scaling)) ∧
    (clickRun env target vc app).2 =
      [ClickEv.at (pyInt (e.cx / env.scaling)) (pyInt (e.cy / env.scaling))] ∧
    (clickRun env target vc app).1.methodUsed = PipeMethod.ocr ∧
    (clickRun env target vc app).1.confidence = e.confidence := by
  simp [clickRun, boundsLookup, hacc, hfind]

/-- C4 witness: accessibility unavailable, candidate centered at
`(240, 680)`, scaling factor 2.0 — the click is dispatched at `(120, 340)`. -/
theorem ocr_coordinate_correction_witness :
    (clickRun retinaEnv (pyStr "OK") none none).1.coordinates =
      some (120, 340) ∧
    (clickRun retinaEnv (pyStr "OK") none none).2 = [ClickEv.at 120 340] ∧
    (clickRun retinaEnv (pyStr "OK") none none).1.methodUsed =
      PipeMethod.ocr := by
  have h := ocr_coordinate_correction retinaEnv (pyStr "OK") none none
    ⟨pyStr "OK", 240, 680, 9/10⟩ [] rfl rfl
  refine ⟨?_, ?_, h.2.2.1⟩
  · rw [h.1]
    norm_num [retinaEnv, pyInt]
  · rw [h.2.1]
    norm_num [retinaEnv, pyInt]

/-- When tier 1 yields nothing and neither OCR stage matches, the pipeline
returns the terminal failure result and dispatches no click. -/
theorem clickRun_no_match (penv : PipeEnv) (target : PyStr) (app : Option PyStr)
    (h1 : penv.accAvailable = false ∨
      (penv.clickElementClicked = false ∧ penv.foundElements = [] ∧
        penv.windowBounds = none))
    (h2 : penv.findTextResult = [])
    (h3 : bestFuzzy (pyNorm target) penv.allText = none) :
    clickRun penv target none app =
      ({ success := false, actionTaken := pyStr "Failed to click " ++ target,
         methodUsed := .multiTier, confidence := 0, coordinates := none,
         errorMsg := some (pyStr "Could not locate: " ++ target) }, []) := by
  rcases h1 with h1 | ⟨hc, hf, hw⟩
  · simp [clickRun, boundsLookup, h1, h2, h3]
  · simp [clickRun, boundsLookup, hc, hf, hw, h2, h3]

/-- A list is a prefix of itself. -/
theorem isPrefixOf_self : ∀ l : PyStr, l.isPrefixOf l = true
  | [] => rfl
  | c :: t => by simp [List.isPrefixOf, isPrefixOf_self t]

/-- Every string contains itself. -/
theorem pyContains_self : ∀ s : PyStr, pyContains s s = true
  | [] => rfl
  | c :: t => by rw [pyContains]; simp [isPrefixOf_self]

/-- A non-empty name matches itself. -/
theorem matchesName_self (s : PyStr) (h : s ≠ []) : matchesName s s = true := by
  rw [matchesName, if_neg (by simp [h])]
  simp [pyContains_self]

/-- When no running application's localized name matches the requested name
and the frontmost title does not match either, `get_app` resolves to `none` —
it does not fall back to the (non-matching) frontmost application. -/
theorem macGetApp_miss (env : MacEnv) (name : PyStr)
    (hne : pyStrip name ≠ [])
    (happs : ∀ a ∈ env.runningApps, ∀ ln, a.localizedName = some ln →
      matchesName ln (pyStrip name) = false)
    (hfront : ∀ t, env.frontmostTitle = some t →
      matchesName t (pyStrip name) = false) :
    macGetApp true env name = none := by
  have hname : ¬(name = []) := by
    intro h
    exact hne (by rw [h]; rfl)
  rw [macGetApp, if_neg (by simp [hname])]
  have hfind1 : env.runningApps.find?
      (fun a => a.localizedName = some (pyStrip name)) = none := by
    rw [List.find?_eq_none]
    intro a ha
    simp only [decide_eq_true_eq]
    intro heq
    have hf := happs a ha (pyStrip name) heq
    rw [matchesName_self (pyStrip name) hne] at hf
    exact absurd hf (by simp)
  rw [hfind1]
  have hfind2 : env.runningApps.find? (fun a =>
      match a.localizedName with
      | some ln => matchesName ln (pyStrip name) ∧ a.bundleId.isSome
      | none => false) = none := by
    rw [List.find?_eq_none]
    intro a ha
    rcases hln : a.localizedName with _ | ln
    · simp
    · have := happs a ha ln hln
      simp [this]
  rw [hfind2]
  rcases hfm : env.frontmostTitle with _ | t
  · rfl
  · simp [hfront t hfm]

/-- C2 (amended): when no running application's localized name matches the
requested name by case-insensitive substring and the frontmost title does not
match either, `get_app` resolves to `None` (the `AppNotFound` signal) rather
than falling back to the frontmost application; the pipeline, with the app
unresolved (tier 1 empty, no window bounds), does not stop there but falls
through to OCR, and only when OCR also matches nothing does it return a
failure result (success false, confidence 0, naming the target) with no
click dispatched. -/
theorem appNotFound_resolution (env : MacEnv) (name : PyStr) (penv : PipeEnv)
    (target : PyStr) (app : Option PyStr)
    (hne : pyStrip name ≠ [])
    (happs : ∀ a ∈ env.runningApps, ∀ ln, a.localizedName = some ln →
      matchesName ln (pyStrip name) = false)
    (hfront : ∀ t, env.frontmostTitle = some t →
      matchesName t (pyStrip name) = false)
    (hclick : penv.clickElementClicked = false)
    (hfound : penv.foundElements = [])
    (hwb : penv.windowBounds = none)
    (hft : penv.findTextResult = [])
    (hbest : bestFuzzy (pyNorm target) penv.allText = none) :
    macGetApp true env name = none ∧
    (clickRun penv target none app).1.success = false ∧
    (clickRun penv target none app).1.confidence = 0 ∧
    (clickRun penv target none app).1.errorMsg =
      some (pyStr "Could not locate: " ++ target) ∧
    (clickRun penv target none app).2 = [] := by
  have hrun := clickRun_no_match penv target app
    (Or.inr ⟨hclick, hfound, hwb⟩) hft hbest
  exact ⟨macGetApp_miss env name hne happs hfront,
    by rw [hrun], by rw [hrun], by rw [hrun], by rw [hrun]⟩

/-- C2 counterexample: with Calculator not running (`get_app` misses), the
pipeline does not return an `AppNotFound` failure: it falls through to OCR,
finds `"7"` on the full screen and dispatches a click at `(100, 200)`,
returning success via the `ocr` method — refuting "returns AppNotFound and no
click is dispatched". -/
theorem appNotFound_click_dispatched_counterexample :
    macGetApp true safariEnv (pyStr "Calculator") = none ∧
    (clickRun calcMissEnv (pyStr "7") none (some (pyStr "Calculator"))).1.success
      = true ∧
    (clickRun calcMissEnv (pyStr "7") none
      (some (pyStr "Calculator"))).1.methodUsed = PipeMethod.ocr ∧
    (clickRun calcMissEnv (pyStr "7") none (some (pyStr "Calculator"))).2 =
      [ClickEv.at 100 200] := by
  refine ⟨?_, ?_, ?_, ?_⟩
  · apply macGetApp_miss safariEnv (pyStr "Calculator") (by decide)
    · intro a ha ln heq
      rw [show safariEnv.runningApps =
        [⟨some (pyStr "Safari"), some (pyStr "com.apple.Safari")⟩] from rfl,
        List.mem_singleton] at ha
      subst ha
      have hln : ln = pyStr "Safari" := by
        have := heq.symm
        simpa using this
      subst hln
      decide
    · intro t ht
      have htt : t = pyStr "Safari" := by
        have : some (pyStr "Safari") = some t := ht.symm ▸ rfl
        simpa using this.symm
      subst htt
      decide
  all_goals
    simp [clickRun, boundsLookup, calcMissEnv, pyInt]

/-- C2 witness: Calculator not running among `[Safari]`, frontmost Safari,
and OCR empty — resolution misses and the pipeline fails with no click. -/
theorem appNotFound_resolution_witness :
    macGetApp true safariEnv (pyStr "Calculator") = none ∧
    (clickRun missPipeEnv (pyStr "7") none
      (some (pyStr "Calculator"))).1.success = false ∧
    (clickRun missPipeEnv (pyStr "7") none
      (some (pyStr "Calculator"))).1.confidence = 0 ∧
    (clickRun missPipeEnv (pyStr "7") none
      (some (pyStr "Calculator"))).1.errorMsg =
      some (pyStr "Could not locate: " ++ pyStr "7") ∧
    (clickRun missPipeEnv (pyStr "7") none
      (some (pyStr "Calculator"))).2 = [] := by
  apply appNotFound_resolution safariEnv (pyStr "Calculator") missPipeEnv
    (pyStr "7") (some (pyStr "Calculator")) (by decide)
  · intro a ha ln heq
    rw [show safariEnv.runningApps =
      [⟨some (pyStr "Safari"), some (pyStr "com.apple.Safari")⟩] from rfl,
      List.mem_singleton] at ha
    subst ha
    have hln : ln = pyStr "Safari" := by
      have := heq.symm
      simpa using this
    subst hln
    decide
  · intro t ht
    have htt : t = pyStr "Safari" := by
      have : some (pyStr "Safari") = some t := ht.symm ▸ rfl
      simpa using this.symm
    subst htt
    decide
  · rfl
  · rfl
  · rfl
  · rfl
  · rfl

/-- The color path only produces `cv`-method detections. -/
theorem locateColorTry_method (env : DetectorEnv) (ch : Option PyStr)
    (d : DetectedElem) (h : locateColorTry env ch = some d) :
    d.method = DetMethod.cv := by
  rcases ch with _ | c
  · simp [locateColorTry] at h
  · rw [locateColorTry] at h
    by_cases hc : c ≠ []
    · rw [if_pos hc] at h
      rcases hcl : colorLoop env.findByColor (parseColorHint c) with _ | e
      · rw [hcl] at h
        exact absurd h (by simp)
      · rw [hcl] at h
        rw [← Option.some.inj h]
    · rw [if_neg hc] at h
      exact absurd h (by simp)

/-- Any `ocr`-method detection returned by `locate_element` clears the 0.6
confidence threshold. -/
theorem locateElement_ocr_threshold (denv : DetectorEnv) (tc ch : Option PyStr)
    (d : DetectedElem) (hdet : locateElement denv tc ch = some d)
    (hocr : d.method = DetMethod.ocr) : d.confidence > 6/10 := by
  rw [locateElement] at hdet
  rcases htt : locateTextTry denv tc with _ | d'
  · rw [htt] at hdet
    have := locateColorTry_method denv ch d hdet
    rw [hocr] at this
    exact absurd this (by simp)
  · rw [htt] at hdet
    have hd : d' = d := Option.some.inj hdet
    subst hd
    rcases tc with _ | tcs
    · simp [locateTextTry] at htt
    · rw [locateTextTry] at htt
      by_cases he : tcs ≠ []
      · rw [if_pos he] at htt
        rcases hfr : denv.findTextResult with _ | ⟨r, rs⟩
        · rw [hfr] at htt
          exact absurd htt (by simp)
        · rw [hfr] at htt
          replace htt : (if (maxByConf r rs).confidence > 6/10 then
              some (DetectedElem.mk (maxByConf r rs).confidence DetMethod.ocr)
            else none) = some d' := htt
          by_cases hbc : (maxByConf r rs).confidence > 6/10
          · rw [if_pos hbc] at htt
            rw [← Option.some.inj htt]
            exact hbc
          · rw [if_neg hbc] at htt
            exact absurd htt (by simp)
      · rw [if_neg he] at htt
        exact absurd htt (by simp)

/-- C9 (amended): when no tier produces a candidate, the pipeline returns the
terminal failure result — success false, confidence 0.0, `multi_tier`, an
error naming the target — and dispatches no click; the only minimum-confidence
threshold in the resolution code is `ElementDetector.locate_element`'s OCR
path, whose `ocr` detections always clear 0.6. The pipeline's own fuzzy tier,
however, enforces no threshold when dispatching. -/
theorem orchestrator_exhaustion_and_threshold (penv : PipeEnv) (target : PyStr)
    (app : Option PyStr) (denv : DetectorEnv) (tc ch : Option PyStr)
    (d : DetectedElem)
    (hacc : penv.accAvailable = false)
    (hft : penv.findTextResult = [])
    (hbest : bestFuzzy (pyNorm target) penv.allText = none)
    (hdet : locateElement denv tc ch = some d)
    (hocr : d.method = DetMethod.ocr) :
    (clickRun penv target none app).1.success = false ∧
    (clickRun penv target none app).1.confidence = 0 ∧
    (clickRun penv target none app).1.methodUsed = PipeMethod.multiTier ∧
    (clickRun penv target none app).1.errorMsg =
      some (pyStr "Could not locate: " ++ target) ∧
    (clickRun penv target none app).2 = [] ∧
    d.confidence > 6/10 := by
  have hrun := clickRun_no_match penv target app (Or.inl hacc) hft hbest
  exact ⟨by rw [hrun], by rw [hrun], by rw [hrun], by rw [hrun], by rw [hrun],
    locateElement_ocr_threshold denv tc ch d hdet hocr⟩

/-- C9 witness: an exhausted pipeline returns the terminal failure with no
click, and a concrete `locate_element` OCR detection carries confidence
0.7 > 0.6. -/
theorem orchestrator_exhaustion_and_threshold_witness :
    (clickRun exhaustedEnv (pyStr "OK") none none).1.success = false ∧
    (clickRun exhaustedEnv (pyStr "OK") none none).1.confidence = 0 ∧
    (clickRun exhaustedEnv (pyStr "OK") none none).1.methodUsed =
      PipeMethod.multiTier ∧
    (clickRun exhaustedEnv (pyStr "OK") none none).1.errorMsg =
      some (pyStr "Could not locate: " ++ pyStr "OK") ∧
    (clickRun exhaustedEnv (pyStr "OK") none none).2 = [] ∧
    (DetectedElem.mk (7/10) DetMethod.ocr).confidence > 6/10 := by
  have hdet : locateElement detEnv (some (pyStr "OK")) none =
      some (DetectedElem.mk (7/10) DetMethod.ocr) := by
    rw [locateElement, locateTextTry]
    simp only [detEnv]
    rw [if_pos (by decide)]
    norm_num [maxByConf]
  exact orchestrator_exhaustion_and_threshold exhaustedEnv (pyStr "OK") none
    detEnv (some (pyStr "OK")) none (DetectedElem.mk (7/10) DetMethod.ocr)
    rfl rfl rfl hdet rfl

/-- C9 counterexample: the fuzzy tier dispatches a click for a candidate with
OCR confidence 0.0 — far below the detector's 0.6 threshold — and reports
success with confidence 0.0, refuting "never dispatches a click at a
coordinate produced by a candidate whose confidence is below the minimum
confidence threshold". -/
theorem fuzzy_below_threshold_dispatch_counterexample :
    (clickRun zeroConfEnv (pyStr "OK") none none).1.success = true ∧
    (clickRun zeroConfEnv (pyStr "OK") none none).1.methodUsed =
      PipeMethod.ocr ∧
    (clickRun zeroConfEnv (pyStr "OK") none none).1.confidence = 0 ∧
    (clickRun zeroConfEnv (pyStr "OK") none none).2 = [ClickEv.at 100 200] ∧
    ¬((0 : ℚ) > 6/10) := by
  have hs : fuzzyScore (pyNorm (pyStr "OK")) ⟨pyStr "ok", 100, 200, 0⟩ =
      some (1000 + 0 * 100) := by
    rw [fuzzyScore]
    rw [if_pos (by decide)]
  have hb : bestFuzzy (pyNorm (pyStr "OK")) [⟨pyStr "ok", 100, 200, 0⟩] =
      some ⟨pyStr "ok", 100, 200, 0⟩ := by
    simp only [bestFuzzy, List.foldl, bestFuzzyStep, hs]
    rw [if_pos (by norm_num)]
  refine ⟨?_, ?_, ?_, ?_, by norm_num⟩ <;>
    simp [clickRun, boundsLookup, zeroConfEnv, hb, pyInt]
